import Mathlib

/-!
Verification of the tool-augmented conversation orchestrator of this
repository.  The two backend variants are shallowly embedded:

* `process_query_bedrock` embeds `MCPClient.process_query` of
  `mcp-client/client-bedrock.py` (Variant A).  The Python code iterates over
  the *first* reply's content list (the iterator is created once, so the later
  reassignment of `response_json` does not affect it) and performs one extra
  `invoke_model` call per `tool_use` item, reading only `content[0]["text"]`
  of each follow-up reply.  The mutable `assistant_message_content` list is
  appended to `messages` by reference on every `tool_use` iteration; this
  aliasing is modelled by `BEntry.amcRef` entries that are resolved against
  the current value of the list, and conversation snapshots are taken after
  every state mutation so that in-place mutation of already-appended messages
  is observable.
* `process_query_openai` embeds `MCPClient.process_query` of
  `mcp-client/client-openai.py` (Variant B): a genuine `while True` loop that
  appends the assistant message, dispatches every `tool_call` of the reply in
  order, appends one tool message per call, and re-invokes the backend; it
  stops at the first reply with no tool calls, returning that reply's content.

The model backend is scripted as a list of replies, consumed one per backend
call (an exhausted script models a backend failure, `BackendError`).  The
external tool session is an oracle `Tool`; `Except.error` models a raised
`ToolExecutionError`.  Neither Python function contains a `try`/`except`, so
a failing tool call aborts the embedded run exactly as the exception would.
Both runs also emit an event trace (`Ev`): one `backend` event per backend
call (carrying the ids of the tool requests of the reply), one `dispatch`
event per `session.call_tool`, and one `appendResult` event per appended
tool-result message.
-/

namespace MCP

deriving instance DecidableEq for Except

/-- Tool-call arguments: a finite string-to-value mapping (values modelled as
integers, which is all the repository's scenarios use). -/
abbrev Args := List (String × Int)

/-- The external tool session: `call_tool` either returns the (stringified)
result content or raises a `ToolExecutionError` carrying a message. -/
def Tool := String → Args → Except String String

/-- One content item of a Bedrock (Variant A) reply: `{"type":"text"}` or
`{"type":"tool_use"}` as decoded from the response body. -/
inductive BItem where
  | text (s : String)
  | toolUse (id name : String) (input : Args)
deriving DecidableEq

/-- A fully resolved message of the Variant A conversation. -/
inductive BMsg where
  | user (q : String)
  | assistant (content : List BItem)
  | toolResult (toolUseId content : String)
deriving DecidableEq

/-- An entry of the Variant A `messages` list before resolving the aliasing:
`amcRef` is an occurrence of the shared mutable `assistant_message_content`
list (Python appends the same list object each `tool_use` iteration). -/
inductive BEntry where
  | user (q : String)
  | amcRef
  | toolRes (toolUseId content : String)
deriving DecidableEq

/-- Resolve the `messages` entries against the current value of
`assistant_message_content`, yielding the conversation as Python would
observe it at that instant. -/
def resolveB (amc : List BItem) (es : List BEntry) : List BMsg :=
  es.map (fun e =>
    match e with
    | BEntry.user q => BMsg.user q
    | BEntry.amcRef => BMsg.assistant amc
    | BEntry.toolRes i c => BMsg.toolResult i c)

/-- Trace events emitted by a run: a backend call (carrying the ids of the
tool requests contained in the reply it returned), a tool dispatch through
the session, and the append of one tool-result message. -/
inductive Ev where
  | backend (toolReqIds : List String)
  | dispatch (name : String) (args : Args)
  | appendResult (requestId : String)
deriving DecidableEq

/-- Ids of the `tool_use` items of a Variant A reply. -/
def toolUseIds (rep : List BItem) : List String :=
  rep.filterMap (fun i =>
    match i with
    | BItem.toolUse id _ _ => some id
    | _ => none)

/-- The `(name, arguments)` pairs of the `tool_use` items of a Variant A
reply, in order. -/
def toolUsesOf (rep : List BItem) : List (String × Args) :=
  rep.filterMap (fun i =>
    match i with
    | BItem.toolUse _ n a => some (n, a)
    | _ => none)

/-- Number of `tool_use` items in a Variant A reply. -/
def toolUseCount (rep : List BItem) : Nat := (toolUsesOf rep).length

/-- The text values of the `text` items of a Variant A reply, in order. -/
def textsOf (rep : List BItem) : List String :=
  rep.filterMap (fun i =>
    match i with
    | BItem.text s => some s
    | _ => none)

/-- Whether a Variant A content item is a `text` item. -/
def isTextItem : BItem → Bool
  | BItem.text _ => true
  | _ => false

/-- Python `repr` of the decoded argument mapping, used by the f-string
`[Calling tool {tool_name} with args {tool_args}]` of the Bedrock client. -/
def fmtArgsPairs : List (String × Int) → String
  | [] => ""
  | [(k, v)] => "'" ++ k ++ "': " ++ toString v
  | (k, v) :: rest => "'" ++ k ++ "': " ++ toString v ++ ", " ++ fmtArgsPairs rest

/-- Python `str` of the argument dict, brace-delimited. -/
def fmtArgs (a : Args) : String := "\x7b" ++ fmtArgsPairs a ++ "\x7d"

/-- The locally generated text the Bedrock client appends to `final_text`
before dispatching a tool call (the f-string of client-bedrock.py line 83). -/
def callMarker (name : String) (args : Args) : String :=
  "[Calling tool " ++ name ++ " with args " ++ fmtArgs args ++ "]"

/-- Outcome of a Variant A run: the generated trace events, the conversation
snapshots taken after each state mutation (resolved views of `messages`), the
final resolved conversation, and the returned string or the raised error. -/
structure ARun where
  evs : List Ev
  snaps : List (List BMsg)
  msgs : List BMsg
  res : Except String String
deriving DecidableEq

/-- The body of the Bedrock `for content in response_json.get("content", [])`
loop (client-bedrock.py lines 73-105), processing the remaining items of the
*first* reply.  `script` holds the replies the scripted backend will return
to the follow-up `invoke_model` calls, `ft` is `final_text`, `amc` is
`assistant_message_content`, and `msgs` the entries of `messages`. -/
def bedrockGo (tool : Tool) : List BItem → List (List BItem) →
    List String → List BItem → List BEntry → ARun
  | [], _, ft, amc, msgs =>
      ⟨[], [], resolveB amc msgs, Except.ok (String.intercalate "\n" ft)⟩
  | BItem.text s :: rest, script, ft, amc, msgs =>
      let amc' := amc ++ [BItem.text s]
      let r := bedrockGo tool rest script (ft ++ [s]) amc' msgs
      ⟨r.evs, resolveB amc' msgs :: r.snaps, r.msgs, r.res⟩
  | BItem.toolUse id name args :: rest, script, ft, amc, msgs =>
      match tool name args with
      | Except.error m =>
          ⟨[Ev.dispatch name args], [], resolveB amc msgs,
            Except.error ("ToolExecutionError: " ++ m)⟩
      | Except.ok rcontent =>
          let ft1 := ft ++ [callMarker name args]
          let amc' := amc ++ [BItem.toolUse id name args]
          let msgs1 := msgs ++ [BEntry.amcRef]
          let msgs2 := msgs1 ++ [BEntry.toolRes id rcontent]
          let snaps0 := [resolveB amc' msgs, resolveB amc' msgs1, resolveB amc' msgs2]
          match script with
          | [] =>
              ⟨[Ev.dispatch name args, Ev.appendResult id], snaps0,
                resolveB amc' msgs2, Except.error "BackendError"⟩
          | rep :: script' =>
              match rep with
              | BItem.text t :: _ =>
                  let r := bedrockGo tool rest script' (ft1 ++ [t]) amc' msgs2
                  ⟨Ev.dispatch name args :: Ev.appendResult id ::
                      Ev.backend (toolUseIds rep) :: r.evs,
                    snaps0 ++ r.snaps, r.msgs, r.res⟩
              | BItem.toolUse _ _ _ :: _ =>
                  ⟨[Ev.dispatch name args, Ev.appendResult id,
                      Ev.backend (toolUseIds rep)],
                    snaps0, resolveB amc' msgs2, Except.error "KeyError: text"⟩
              | [] =>
                  ⟨[Ev.dispatch name args, Ev.appendResult id, Ev.backend []],
                    snaps0, resolveB amc' msgs2, Except.error "IndexError"⟩

/-- Variant A `process_query` against a scripted backend: the conversation is
seeded with the user query, the first backend call consumes the first
scripted reply, and the reply's items are processed by `bedrockGo`. -/
def process_query_bedrock (tool : Tool) (script : List (List BItem))
    (query : String) : ARun :=
  let msgs0 : List BEntry := [BEntry.user query]
  match script with
  | [] => ⟨[], [resolveB [] msgs0], resolveB [] msgs0, Except.error "BackendError"⟩
  | rep :: script' =>
      let r := bedrockGo tool rep script' [] [] msgs0
      ⟨Ev.backend (toolUseIds rep) :: r.evs, resolveB [] msgs0 :: r.snaps,
        r.msgs, r.res⟩

/-- One `tool_call` of an OpenAI (Variant B) reply, with its arguments
already decoded from the serialized blob into a structured mapping. -/
structure OACall where
  id : String
  name : String
  args : Args
deriving DecidableEq

/-- An assistant message as returned by the chat-completion API. -/
structure OAMessage where
  content : Option String
  tool_calls : List OACall
deriving DecidableEq

/-- A message of the Variant B conversation. -/
inductive OAMsg where
  | user (q : String)
  | assistant (m : OAMessage)
  | tool (tool_call_id name content : String)
deriving DecidableEq

/-- The value carried by a successful tool call (used only under a
success hypothesis). -/
def okValue : Except String String → String
  | Except.ok v => v
  | Except.error e => e

/-- Outcome of the Variant B `for tool_call in message.tool_calls` loop:
generated events, conversation snapshots after each append, the resulting
conversation, and the error if a dispatch raised. -/
structure DispRes where
  evs : List Ev
  snaps : List (List OAMsg)
  msgs : List OAMsg
  err : Option String
deriving DecidableEq

/-- The Variant B inner dispatch loop (client-openai.py lines 79-89): each
tool call is dispatched through the session and its result appended as a
`tool` message; a raised `ToolExecutionError` aborts the loop. -/
def oaDispatch (tool : Tool) : List OACall → List OAMsg → DispRes
  | [], msgs => ⟨[], [], msgs, none⟩
  | c :: cs, msgs =>
      match tool c.name c.args with
      | Except.error m =>
          ⟨[Ev.dispatch c.name c.args], [], msgs,
            some ("ToolExecutionError: " ++ m)⟩
      | Except.ok v =>
          let msgs' := msgs ++ [OAMsg.tool c.id c.name v]
          let r := oaDispatch tool cs msgs'
          ⟨Ev.dispatch c.name c.args :: Ev.appendResult c.id :: r.evs,
            msgs' :: r.snaps, r.msgs, r.err⟩

/-- Outcome of a Variant B run. -/
structure OARun where
  evs : List Ev
  snaps : List (List OAMsg)
  msgs : List OAMsg
  res : Except String String
deriving DecidableEq

/-- The Variant B `while True` loop (client-openai.py lines 74-97): append
the assistant message; if it carries tool calls, dispatch them all and make
the next backend call (consuming the next scripted reply), otherwise the
reply's content is the final answer (`"\n".join` of a one-element list; a
`None` content makes the join raise, modelled as a `TypeError`). -/
def oaLoop (tool : Tool) : OAMessage → List OAMessage → List OAMsg → OARun
  | cur, script, msgs =>
      let msgs1 := msgs ++ [OAMsg.assistant cur]
      match cur.tool_calls with
      | [] =>
          match cur.content with
          | none => ⟨[], [msgs1], msgs1, Except.error "TypeError"⟩
          | some c => ⟨[], [msgs1], msgs1, Except.ok c⟩
      | _ :: _ =>
          let d := oaDispatch tool cur.tool_calls msgs1
          match d.err with
          | some e => ⟨d.evs, msgs1 :: d.snaps, d.msgs, Except.error e⟩
          | none =>
              match script with
              | [] => ⟨d.evs, msgs1 :: d.snaps, d.msgs, Except.error "BackendError"⟩
              | m :: script' =>
                  let r := oaLoop tool m script' d.msgs
                  ⟨d.evs ++ Ev.backend (m.tool_calls.map OACall.id) :: r.evs,
                    (msgs1 :: d.snaps) ++ r.snaps, r.msgs, r.res⟩

/-- Variant B `process_query` against a scripted backend. -/
def process_query_openai (tool : Tool) (script : List OAMessage)
    (query : String) : OARun :=
  let msgs0 : List OAMsg := [OAMsg.user query]
  match script with
  | [] => ⟨[], [msgs0], msgs0, Except.error "BackendError"⟩
  | m :: script' =>
      let r := oaLoop tool m script' msgs0
      ⟨Ev.backend (m.tool_calls.map OACall.id) :: r.evs, msgs0 :: r.snaps,
        r.msgs, r.res⟩

/-- Whether an event is a backend call. -/
def isBackendEv : Ev → Bool
  | Ev.backend _ => true
  | _ => false

/-- Number of backend calls recorded in a trace. -/
def backendCount (evs : List Ev) : Nat :=
  evs.countP isBackendEv

/-- Number of tool dispatches recorded in a trace. -/
def dispatchCount (evs : List Ev) : Nat :=
  evs.countP (fun e =>
    match e with
    | Ev.dispatch _ _ => true
    | _ => false)

/-- Number of appended tool-result messages recorded in a trace. -/
def resultCount (evs : List Ev) : Nat :=
  evs.countP (fun e =>
    match e with
    | Ev.appendResult _ => true
    | _ => false)

/-- Number of appended tool-result messages with the given request id. -/
def resCountId (id : String) (evs : List Ev) : Nat :=
  evs.countP (fun e => e == Ev.appendResult id)

/-- The `(name, arguments)` pairs of the dispatch events of a trace. -/
def dispatchesOf (evs : List Ev) : List (String × Args) :=
  evs.filterMap (fun e =>
    match e with
    | Ev.dispatch n a => some (n, a)
    | _ => none)

/-- The structural invariant claimed by the specification, read off a trace:
after every backend event, each tool-request id of the returned reply is
matched by exactly one tool-result append before the next backend event. -/
def requestsAnswered : List Ev → Bool
  | [] => true
  | Ev.backend ids :: rest =>
      (ids.all fun id =>
        resCountId id (rest.takeWhile (fun e => !isBackendEv e)) == 1)
      && requestsAnswered rest
  | _ :: rest => requestsAnswered rest

/-- The dispatch/append event pairs generated by a successful run of the
Variant B inner dispatch loop, in call order. -/
def pairEvs : List OACall → List Ev
  | [] => []
  | c :: cs => Ev.dispatch c.name c.args :: Ev.appendResult c.id :: pairEvs cs

/-- The tool-result messages generated by a successful run of the Variant B
inner dispatch loop, in call order. -/
def resultMsgs (tool : Tool) : List OACall → List OAMsg
  | [] => []
  | c :: cs =>
      OAMsg.tool c.id c.name (okValue (tool c.name c.args)) :: resultMsgs tool cs

/-- The content of the first scripted Variant B reply carrying no tool
calls: the reply at which the `while True` loop terminates. -/
def oaFirstFinal : List OAMessage → Option String
  | [] => none
  | m :: rest =>
      match m.tool_calls with
      | [] => m.content
      | _ :: _ => oaFirstFinal rest

/-- The textual content items emitted by the scripted Variant B backend over
its first `n` replies, in emission order. -/
def oaEmittedTexts (script : List OAMessage) (n : Nat) : List String :=
  (script.take n).filterMap OAMessage.content

/-- A provider-agnostic tool descriptor as obtained from `list_tools`. -/
structure ToolDescriptor where
  name : String
  description : String
  inputSchema : String
deriving DecidableEq

/-- One entry of the Bedrock `tools` array (client-bedrock.py lines 48-52). -/
structure BedrockToolEntry where
  name : String
  description : String
  input_schema : String
deriving DecidableEq

/-- The `function` object of an OpenAI tool entry. -/
structure OAFunctionSpec where
  name : String
  description : String
  parameters : String
deriving DecidableEq

/-- One entry of the OpenAI `tools` array (client-openai.py lines 54-64). -/
structure OAToolEntry where
  type : String
  function : OAFunctionSpec
deriving DecidableEq

/-- The Variant A tool catalog adapter. -/
def available_tools_bedrock (ts : List ToolDescriptor) : List BedrockToolEntry :=
  ts.map (fun t => ⟨t.name, t.description, t.inputSchema⟩)

/-- The Variant B tool catalog adapter. -/
def available_tools_openai (ts : List ToolDescriptor) : List OAToolEntry :=
  ts.map (fun t => ⟨"function", ⟨t.name, t.description, t.inputSchema⟩⟩)

/-- A provider-schema-aware reader for Variant A entries. -/
def readBedrockEntry (e : BedrockToolEntry) : ToolDescriptor :=
  ⟨e.name, e.description, e.input_schema⟩

/-- A provider-schema-aware reader for Variant B entries. -/
def readOAEntry (e : OAToolEntry) : ToolDescriptor :=
  ⟨e.function.name, e.function.description, e.function.parameters⟩

/-- Python `str.strip()` (leading and trailing whitespace removed; modelled
at the ASCII level). -/
def pyStrip (s : String) : String :=
  String.mk (((s.data.dropWhile Char.isWhitespace).reverse.dropWhile
    Char.isWhitespace).reverse)

/-- Python `str.lower()` (modelled at the ASCII level). -/
def pyLower (s : String) : String := String.mk (s.data.map Char.toLower)

/-- Whether an input line makes the interactive loop quit:
`input("...").strip()` followed by `query.lower() == 'quit'` (both
variants, identical code). -/
def isQuitLine (s : String) : Bool := pyLower (pyStrip s) == "quit"

/-- The interactive `chat_loop` over a list of input lines, returning the
queries dispatched to `process_query` in order (the loop breaks at the first
quit line without dispatching it). -/
def chat_loop : List String → List String
  | [] => []
  | line :: rest =>
      let query := pyStrip line
      if pyLower query == "quit" then []
      else query :: chat_loop rest

/-! Concrete fixtures used by counterexamples and witnesses. -/

/-- A tool session on which every call succeeds with content `"r"`. -/
def toolOK : Tool := fun _ _ => Except.ok "r"

/-- A tool session on which every call raises `ToolExecutionError`. -/
def toolFail : Tool := fun _ _ => Except.error "unknown tool"

/-- The `add` tool stub of the specification's multi-round scenario. -/
def toolAdd : Tool := fun n _ =>
  if n = "add" then Except.ok "5" else Except.error "unknown tool"

/-- A Variant A script whose first reply carries two tool requests and whose
follow-up replies are plain text. -/
def scriptA2 : List (List BItem) :=
  [[BItem.toolUse "i1" "a" [], BItem.toolUse "i2" "b" []],
   [BItem.text "x"], [BItem.text "y"]]

/-- The Variant A script of the multi-round `add` scenario. -/
def scriptAAdd : List (List BItem) :=
  [[BItem.toolUse "toolu_1" "add" [("a", 2), ("b", 3)]], [BItem.text "5"]]

/-- The Variant B script of the multi-round `add` scenario. -/
def scriptBAdd : List OAMessage :=
  [⟨none, [⟨"call_1", "add", [("a", 2), ("b", 3)]⟩]⟩, ⟨some "5", []⟩]

/-- A Variant B script whose first reply carries text alongside a tool call. -/
def scriptBTexty : List OAMessage :=
  [⟨some "thinking", [⟨"call_1", "add", [("a", 2), ("b", 3)]⟩]⟩, ⟨some "5", []⟩]

/-- A Variant A script whose first reply carries a single tool request. -/
def scriptA1 : List (List BItem) :=
  [[BItem.toolUse "i1" "add" [("a", 2), ("b", 3)]], [BItem.text "x"]]

/-- A Variant B script whose first reply carries a single tool call. -/
def scriptB1 : List OAMessage :=
  [⟨none, [⟨"call_1", "add", [("a", 2), ("b", 3)]⟩]⟩, ⟨some "5", []⟩]

/-- A Variant B reply carrying two simultaneous tool calls. -/
def curB2 : OAMessage :=
  ⟨none, [⟨"c1", "t1", [("x", 1)]⟩, ⟨"c2", "t2", [("y", 4)]⟩]⟩

/-- A Variant B script consisting of one final, tool-free reply. -/
def scriptDone : List OAMessage := [⟨some "done", []⟩]

/-- Boolean test that the first list is a prefix of the second
(the first list has only grown by appends to become the second). -/
def isGrowth [DecidableEq α] : List α → List α → Bool
  | [], _ => true
  | _ :: _, [] => false
  | a :: as, b :: bs => if a = b then isGrowth as bs else false

/-- Boolean test that a sequence of conversation snapshots, starting from the
conversation `m`, only ever grows by appends (no already-appended message is
ever changed). -/
def snapsMonoFrom [DecidableEq α] (m : List α) : List (List α) → Bool
  | [] => true
  | s :: rest => isGrowth m s && snapsMonoFrom s rest

/-- The last snapshot of a sequence, defaulting to `m`. -/
def lastSnap (m : List α) : List (List α) → List α
  | [] => m
  | s :: rest => lastSnap s rest

/-- Boolean test that a nonempty sequence of conversation snapshots is
monotonically growing (each snapshot extends the previous one by appends). -/
def snapsMono [DecidableEq α] : List (List α) → Bool
  | [] => true
  | s :: rest => snapsMonoFrom s rest

end MCP

namespace MCP

/-! Generic helper lemmas. -/

theorem isGrowth_self_append [DecidableEq α] :
    ∀ (l t : List α), isGrowth l (l ++ t) = true := by
  intro l t
  induction l with
  | nil => rfl
  | cons a l ih => simp [isGrowth, ih]

theorem lastSnap_append (l1 l2 : List (List α)) :
    ∀ m, lastSnap m (l1 ++ l2) = lastSnap (lastSnap m l1) l2 := by
  induction l1 with
  | nil => intro m; rfl
  | cons s l1 ih => intro m; simp [lastSnap, ih]

theorem snapsMonoFrom_append [DecidableEq α] (l1 l2 : List (List α)) :
    ∀ m : List α,
      snapsMonoFrom m (l1 ++ l2)
        = (snapsMonoFrom m l1 && snapsMonoFrom (lastSnap m l1) l2) := by
  induction l1 with
  | nil => intro m; simp [snapsMonoFrom, lastSnap]
  | cons s l1 ih =>
      intro m
      simp [snapsMonoFrom, lastSnap, ih, Bool.and_assoc]

theorem takeWhile_append_all {α : Type} (p : α → Bool) :
    ∀ (l rest : List α), (∀ e ∈ l, p e = true) →
      (l ++ rest).takeWhile p = l ++ rest.takeWhile p := by
  intro l
  induction l with
  | nil => intro rest _; rfl
  | cons a l ih =>
      intro rest h
      have ha := h a (List.mem_cons_self a l)
      simp [List.takeWhile_cons, ha,
        ih rest (fun e he => h e (List.mem_cons_of_mem a he))]

theorem takeWhile_all {α : Type} (p : α → Bool) (l : List α)
    (h : ∀ e ∈ l, p e = true) : l.takeWhile p = l := by
  have := takeWhile_append_all p l [] h
  simpa using this

theorem requestsAnswered_skip :
    ∀ (l rest : List Ev), (∀ e ∈ l, isBackendEv e = false) →
      requestsAnswered (l ++ rest) = requestsAnswered rest := by
  intro l
  induction l with
  | nil => intro rest _; rfl
  | cons e l ih =>
      intro rest h
      have he := h e (List.mem_cons_self e l)
      have ihr := ih rest (fun x hx => h x (List.mem_cons_of_mem e hx))
      cases e with
      | backend ids => simp [isBackendEv] at he
      | dispatch n a => simpa [requestsAnswered] using ihr
      | appendResult i => simpa [requestsAnswered] using ihr

theorem pairEvs_not_backend (cs : List OACall) :
    ∀ e ∈ pairEvs cs, isBackendEv e = false := by
  induction cs with
  | nil => intro e he; simp [pairEvs] at he
  | cons c cs ih =>
      intro e he
      simp only [pairEvs, List.mem_cons] at he
      rcases he with rfl | rfl | he
      · rfl
      · rfl
      · exact ih e he

theorem resCountId_pairEvs (id : String) (cs : List OACall) :
    resCountId id (pairEvs cs) = (cs.map OACall.id).count id := by
  induction cs with
  | nil => rfl
  | cons c cs ih =>
      simp only [pairEvs, resCountId, List.countP_cons, List.map_cons,
        List.count_cons] at *
      simp [ih, beq_iff_eq]

theorem count_one_of_nodup_mem {l : List String} {id : String}
    (hnd : l.Nodup) (hmem : id ∈ l) : l.count id = 1 :=
  List.count_eq_one_of_mem hnd hmem

/-! Lemmas about the Variant B inner dispatch loop. -/

theorem oaDispatch_ok (tool : Tool) :
    ∀ (cs : List OACall) (msgs : List OAMsg),
      (∀ c ∈ cs, ∃ v, tool c.name c.args = Except.ok v) →
      (oaDispatch tool cs msgs).err = none
      ∧ (oaDispatch tool cs msgs).evs = pairEvs cs
      ∧ (oaDispatch tool cs msgs).msgs = msgs ++ resultMsgs tool cs := by
  intro cs
  induction cs with
  | nil => intro msgs _; exact ⟨rfl, rfl, by simp [oaDispatch, resultMsgs]⟩
  | cons c cs ih =>
      intro msgs h
      obtain ⟨v, hv⟩ := h c (List.mem_cons_self c cs)
      have ihr := ih (msgs ++ [OAMsg.tool c.id c.name v])
        (fun x hx => h x (List.mem_cons_of_mem c hx))
      refine ⟨?_, ?_, ?_⟩
      · simp [oaDispatch, hv, ihr.1]
      · simp [oaDispatch, hv, pairEvs, ihr.2.1]
      · simp [oaDispatch, hv, resultMsgs, okValue, ihr.2.2]

theorem oaDispatch_snaps (tool : Tool) :
    ∀ (cs : List OACall) (msgs : List OAMsg),
      snapsMonoFrom msgs (oaDispatch tool cs msgs).snaps = true
      ∧ (oaDispatch tool cs msgs).msgs
          = lastSnap msgs (oaDispatch tool cs msgs).snaps := by
  intro cs
  induction cs with
  | nil => intro msgs; exact ⟨rfl, rfl⟩
  | cons c cs ih =>
      intro msgs
      cases hv : tool c.name c.args with
      | error m => exact ⟨by simp [oaDispatch, hv, snapsMonoFrom], by simp [oaDispatch, hv, lastSnap]⟩
      | ok v =>
          have ihr := ih (msgs ++ [OAMsg.tool c.id c.name v])
          refine ⟨?_, ?_⟩
          · simp [oaDispatch, hv, snapsMonoFrom, isGrowth_self_append, ihr.1]
          · simp [oaDispatch, hv, lastSnap, ihr.2]

theorem oaDispatch_msgs_grows (tool : Tool) :
    ∀ (cs : List OACall) (msgs : List OAMsg),
      ∃ t, (oaDispatch tool cs msgs).msgs = msgs ++ t := by
  intro cs
  induction cs with
  | nil => intro msgs; exact ⟨[], by simp [oaDispatch]⟩
  | cons c cs ih =>
      intro msgs
      cases hv : tool c.name c.args with
      | error m => exact ⟨[], by simp [oaDispatch, hv]⟩
      | ok v =>
          obtain ⟨t, ht⟩ := ih (msgs ++ [OAMsg.tool c.id c.name v])
          exact ⟨OAMsg.tool c.id c.name v :: t, by simp [oaDispatch, hv, ht]⟩

/-! Equation lemmas for the Variant B outer loop. -/

theorem oaLoop_eq_stop (tool : Tool) (cur : OAMessage) (script : List OAMessage)
    (msgs : List OAMsg) (hc : cur.tool_calls = []) :
    oaLoop tool cur script msgs
      = ⟨[], [msgs ++ [OAMsg.assistant cur]], msgs ++ [OAMsg.assistant cur],
          match cur.content with
          | none => Except.error "TypeError"
          | some c => Except.ok c⟩ := by
  cases hcon : cur.content <;> simp only [oaLoop, hc, hcon]

theorem oaLoop_eq_err (tool : Tool) (cur : OAMessage) (script : List OAMessage)
    (msgs : List OAMsg) (c : OACall) (cs : List OACall) (e : String)
    (hc : cur.tool_calls = c :: cs)
    (herr : (oaDispatch tool (c :: cs) (msgs ++ [OAMsg.assistant cur])).err = some e) :
    oaLoop tool cur script msgs
      = ⟨(oaDispatch tool (c :: cs) (msgs ++ [OAMsg.assistant cur])).evs,
          (msgs ++ [OAMsg.assistant cur])
            :: (oaDispatch tool (c :: cs) (msgs ++ [OAMsg.assistant cur])).snaps,
          (oaDispatch tool (c :: cs) (msgs ++ [OAMsg.assistant cur])).msgs,
          Except.error e⟩ := by
  simp only [oaLoop, hc, herr]

theorem oaLoop_eq_exhausted (tool : Tool) (cur : OAMessage)
    (msgs : List OAMsg) (c : OACall) (cs : List OACall)
    (hc : cur.tool_calls = c :: cs)
    (herr : (oaDispatch tool (c :: cs) (msgs ++ [OAMsg.assistant cur])).err = none) :
    oaLoop tool cur [] msgs
      = ⟨(oaDispatch tool (c :: cs) (msgs ++ [OAMsg.assistant cur])).evs,
          (msgs ++ [OAMsg.assistant cur])
            :: (oaDispatch tool (c :: cs) (msgs ++ [OAMsg.assistant cur])).snaps,
          (oaDispatch tool (c :: cs) (msgs ++ [OAMsg.assistant cur])).msgs,
          Except.error "BackendError"⟩ := by
  simp only [oaLoop, hc, herr]

theorem oaLoop_eq_next (tool : Tool) (cur m : OAMessage) (script' : List OAMessage)
    (msgs : List OAMsg) (c : OACall) (cs : List OACall)
    (hc : cur.tool_calls = c :: cs)
    (herr : (oaDispatch tool (c :: cs) (msgs ++ [OAMsg.assistant cur])).err = none) :
    oaLoop tool cur (m :: script') msgs
      = ⟨(oaDispatch tool (c :: cs) (msgs ++ [OAMsg.assistant cur])).evs
            ++ Ev.backend (m.tool_calls.map OACall.id)
            :: (oaLoop tool m script'
                  (oaDispatch tool (c :: cs) (msgs ++ [OAMsg.assistant cur])).msgs).evs,
          ((msgs ++ [OAMsg.assistant cur])
              :: (oaDispatch tool (c :: cs) (msgs ++ [OAMsg.assistant cur])).snaps)
            ++ (oaLoop tool m script'
                  (oaDispatch tool (c :: cs) (msgs ++ [OAMsg.assistant cur])).msgs).snaps,
          (oaLoop tool m script'
              (oaDispatch tool (c :: cs) (msgs ++ [OAMsg.assistant cur])).msgs).msgs,
          (oaLoop tool m script'
              (oaDispatch tool (c :: cs) (msgs ++ [OAMsg.assistant cur])).msgs).res⟩ := by
  conv_lhs => rw [oaLoop]
  simp only [hc, herr]

/-! Lemmas about the Variant B outer loop. -/

theorem oaLoop_msgs_grows (tool : Tool) :
    ∀ (script : List OAMessage) (cur : OAMessage) (msgs : List OAMsg),
      ∃ t, (oaLoop tool cur script msgs).msgs = msgs ++ t := by
  intro script
  induction script with
  | nil =>
      intro cur msgs
      cases hc : cur.tool_calls with
      | nil => exact ⟨[OAMsg.assistant cur], by rw [oaLoop_eq_stop tool cur [] msgs hc]⟩
      | cons c cs =>
          obtain ⟨t, ht⟩ := oaDispatch_msgs_grows tool (c :: cs) (msgs ++ [OAMsg.assistant cur])
          cases herr : (oaDispatch tool (c :: cs) (msgs ++ [OAMsg.assistant cur])).err with
          | some e =>
              exact ⟨OAMsg.assistant cur :: t,
                by rw [oaLoop_eq_err tool cur [] msgs c cs e hc herr]; simpa using ht⟩
          | none =>
              exact ⟨OAMsg.assistant cur :: t,
                by rw [oaLoop_eq_exhausted tool cur msgs c cs hc herr]; simpa using ht⟩
  | cons m script' ih =>
      intro cur msgs
      cases hc : cur.tool_calls with
      | nil => exact ⟨[OAMsg.assistant cur], by rw [oaLoop_eq_stop tool cur (m :: script') msgs hc]⟩
      | cons c cs =>
          obtain ⟨t, ht⟩ := oaDispatch_msgs_grows tool (c :: cs) (msgs ++ [OAMsg.assistant cur])
          cases herr : (oaDispatch tool (c :: cs) (msgs ++ [OAMsg.assistant cur])).err with
          | some e =>
              exact ⟨OAMsg.assistant cur :: t,
                by rw [oaLoop_eq_err tool cur (m :: script') msgs c cs e hc herr]; simpa using ht⟩
          | none =>
              obtain ⟨t2, ht2⟩ :=
                ih m (oaDispatch tool (c :: cs) (msgs ++ [OAMsg.assistant cur])).msgs
              refine ⟨(OAMsg.assistant cur :: t) ++ t2, ?_⟩
              rw [oaLoop_eq_next tool cur m script' msgs c cs hc herr]
              rw [ht2, ht]
              simp

theorem requestsAnswered_backend_pairEvs (cs : List OACall) (rest : List Ev)
    (hnd : (cs.map OACall.id).Nodup)
    (hrest : rest.takeWhile (fun e => !isBackendEv e) = [])
    (hra : requestsAnswered rest = true) :
    requestsAnswered (Ev.backend (cs.map OACall.id) :: (pairEvs cs ++ rest)) = true := by
  have hnb : ∀ e ∈ pairEvs cs, (!isBackendEv e) = true := by
    intro e he
    simp [pairEvs_not_backend cs e he]
  have htw : (pairEvs cs ++ rest).takeWhile (fun e => !isBackendEv e)
      = pairEvs cs ++ rest.takeWhile (fun e => !isBackendEv e) :=
    takeWhile_append_all _ (pairEvs cs) rest hnb
  have hskip : requestsAnswered (pairEvs cs ++ rest) = requestsAnswered rest :=
    requestsAnswered_skip (pairEvs cs) rest (fun e he => pairEvs_not_backend cs e he)
  simp only [requestsAnswered, htw, hrest, List.append_nil, hskip, hra,
    Bool.and_true, List.all_eq_true]
  intro id hid
  simp [resCountId_pairEvs, count_one_of_nodup_mem hnd hid]

theorem oaLoop_answered (tool : Tool)
    (hok : ∀ n a, ∃ v, tool n a = Except.ok v) :
    ∀ (script : List OAMessage) (cur : OAMessage) (msgs : List OAMsg),
      (∀ m ∈ cur :: script, (m.tool_calls.map OACall.id).Nodup) →
      requestsAnswered
        (Ev.backend (cur.tool_calls.map OACall.id)
          :: (oaLoop tool cur script msgs).evs) = true := by
  intro script
  induction script with
  | nil =>
      intro cur msgs hnd
      cases hc : cur.tool_calls with
      | nil =>
          rw [oaLoop_eq_stop tool cur [] msgs hc]
          simp [requestsAnswered]
      | cons c cs =>
          have hnd0 : ((c :: cs).map OACall.id).Nodup := by
            have := hnd cur (List.mem_cons_self cur [])
            rwa [hc] at this
          have hd := oaDispatch_ok tool (c :: cs) (msgs ++ [OAMsg.assistant cur])
            (fun x _ => hok x.name x.args)
          rw [oaLoop_eq_exhausted tool cur msgs c cs hc hd.1]
          have hgoal := requestsAnswered_backend_pairEvs (c :: cs) [] hnd0 rfl rfl
          simpa [hd.2.1] using hgoal
  | cons m script' ih =>
      intro cur msgs hnd
      cases hc : cur.tool_calls with
      | nil =>
          rw [oaLoop_eq_stop tool cur (m :: script') msgs hc]
          simp [requestsAnswered]
      | cons c cs =>
          have hnd0 : ((c :: cs).map OACall.id).Nodup := by
            have := hnd cur (List.mem_cons_self cur (m :: script'))
            rwa [hc] at this
          have hd := oaDispatch_ok tool (c :: cs) (msgs ++ [OAMsg.assistant cur])
            (fun x _ => hok x.name x.args)
          rw [oaLoop_eq_next tool cur m script' msgs c cs hc hd.1]
          have hihr := ih m (oaDispatch tool (c :: cs) (msgs ++ [OAMsg.assistant cur])).msgs
            (fun x hx => hnd x (List.mem_cons_of_mem cur hx))
          have hgoal := requestsAnswered_backend_pairEvs (c :: cs)
            (Ev.backend (m.tool_calls.map OACall.id)
              :: (oaLoop tool m script'
                    (oaDispatch tool (c :: cs) (msgs ++ [OAMsg.assistant cur])).msgs).evs)
            hnd0 (by simp [List.takeWhile_cons, isBackendEv]) hihr
          simpa [hd.2.1] using hgoal

theorem oaLoop_snaps (tool : Tool) :
    ∀ (script : List OAMessage) (cur : OAMessage) (msgs : List OAMsg),
      snapsMonoFrom msgs (oaLoop tool cur script msgs).snaps = true
      ∧ (oaLoop tool cur script msgs).msgs
          = lastSnap msgs (oaLoop tool cur script msgs).snaps := by
  intro script
  induction script with
  | nil =>
      intro cur msgs
      cases hc : cur.tool_calls with
      | nil =>
          rw [oaLoop_eq_stop tool cur [] msgs hc]
          exact ⟨by simp [snapsMonoFrom, isGrowth_self_append], by simp [lastSnap]⟩
      | cons c cs =>
          have hd := oaDispatch_snaps tool (c :: cs) (msgs ++ [OAMsg.assistant cur])
          cases herr : (oaDispatch tool (c :: cs) (msgs ++ [OAMsg.assistant cur])).err with
          | some e =>
              rw [oaLoop_eq_err tool cur [] msgs c cs e hc herr]
              exact ⟨by simp [snapsMonoFrom, isGrowth_self_append, hd.1],
                by simp [lastSnap, hd.2]⟩
          | none =>
              rw [oaLoop_eq_exhausted tool cur msgs c cs hc herr]
              exact ⟨by simp [snapsMonoFrom, isGrowth_self_append, hd.1],
                by simp [lastSnap, hd.2]⟩
  | cons m script' ih =>
      intro cur msgs
      cases hc : cur.tool_calls with
      | nil =>
          rw [oaLoop_eq_stop tool cur (m :: script') msgs hc]
          exact ⟨by simp [snapsMonoFrom, isGrowth_self_append], by simp [lastSnap]⟩
      | cons c cs =>
          have hd := oaDispatch_snaps tool (c :: cs) (msgs ++ [OAMsg.assistant cur])
          cases herr : (oaDispatch tool (c :: cs) (msgs ++ [OAMsg.assistant cur])).err with
          | some e =>
              rw [oaLoop_eq_err tool cur (m :: script') msgs c cs e hc herr]
              exact ⟨by simp [snapsMonoFrom, isGrowth_self_append, hd.1],
                by simp [lastSnap, hd.2]⟩
          | none =>
              have ihr := ih m (oaDispatch tool (c :: cs) (msgs ++ [OAMsg.assistant cur])).msgs
              rw [oaLoop_eq_next tool cur m script' msgs c cs hc herr]
              constructor
              · rw [show ((msgs ++ [OAMsg.assistant cur])
                      :: (oaDispatch tool (c :: cs) (msgs ++ [OAMsg.assistant cur])).snaps)
                      ++ (oaLoop tool m script'
                            (oaDispatch tool (c :: cs) (msgs ++ [OAMsg.assistant cur])).msgs).snaps
                    = ((msgs ++ [OAMsg.assistant cur])
                        :: (oaDispatch tool (c :: cs) (msgs ++ [OAMsg.assistant cur])).snaps)
                      ++ (oaLoop tool m script'
                            (oaDispatch tool (c :: cs) (msgs ++ [OAMsg.assistant cur])).msgs).snaps
                    from rfl]
                rw [snapsMonoFrom_append]
                simp only [snapsMonoFrom, lastSnap, isGrowth_self_append, hd.1,
                  Bool.true_and, ← hd.2, ihr.1, Bool.and_self]
              · rw [lastSnap_append]
                simp only [lastSnap, ← hd.2, ihr.2]

theorem oaLoop_final_content (tool : Tool) :
    ∀ (script : List OAMessage) (cur : OAMessage) (msgs : List OAMsg) (s : String),
      (oaLoop tool cur script msgs).res = Except.ok s →
      oaFirstFinal (cur :: script) = some s := by
  intro script
  induction script with
  | nil =>
      intro cur msgs s h
      cases hc : cur.tool_calls with
      | nil =>
          rw [oaLoop_eq_stop tool cur [] msgs hc] at h
          cases hcon : cur.content with
          | none => rw [hcon] at h; simp at h
          | some c =>
              rw [hcon] at h
              simp at h
              simp [oaFirstFinal, hc, hcon, h]
      | cons c cs =>
          cases herr : (oaDispatch tool (c :: cs) (msgs ++ [OAMsg.assistant cur])).err with
          | some e =>
              rw [oaLoop_eq_err tool cur [] msgs c cs e hc herr] at h
              simp at h
          | none =>
              rw [oaLoop_eq_exhausted tool cur msgs c cs hc herr] at h
              simp at h
  | cons m script' ih =>
      intro cur msgs s h
      cases hc : cur.tool_calls with
      | nil =>
          rw [oaLoop_eq_stop tool cur (m :: script') msgs hc] at h
          cases hcon : cur.content with
          | none => rw [hcon] at h; simp at h
          | some c =>
              rw [hcon] at h
              simp at h
              simp [oaFirstFinal, hc, hcon, h]
      | cons c cs =>
          cases herr : (oaDispatch tool (c :: cs) (msgs ++ [OAMsg.assistant cur])).err with
          | some e =>
              rw [oaLoop_eq_err tool cur (m :: script') msgs c cs e hc herr] at h
              simp at h
          | none =>
              rw [oaLoop_eq_next tool cur m script' msgs c cs hc herr] at h
              simp only [] at h
              have hrec := ih m
                (oaDispatch tool (c :: cs) (msgs ++ [OAMsg.assistant cur])).msgs s h
              have hstep : oaFirstFinal (cur :: m :: script')
                  = oaFirstFinal (m :: script') := by
                simp [oaFirstFinal, hc]
              rw [hstep, hrec]

/-! Equation lemmas for the Variant A reply-item loop. -/

theorem bedrockGo_eq_nil (tool : Tool) (script : List (List BItem))
    (ft : List String) (amc : List BItem) (msgs : List BEntry) :
    bedrockGo tool [] script ft amc msgs
      = ⟨[], [], resolveB amc msgs, Except.ok (String.intercalate "\n" ft)⟩ := rfl

theorem bedrockGo_eq_text (tool : Tool) (s : String) (rest : List BItem)
    (script : List (List BItem)) (ft : List String) (amc : List BItem)
    (msgs : List BEntry) :
    bedrockGo tool (BItem.text s :: rest) script ft amc msgs
      = ⟨(bedrockGo tool rest script (ft ++ [s]) (amc ++ [BItem.text s]) msgs).evs,
          resolveB (amc ++ [BItem.text s]) msgs
            :: (bedrockGo tool rest script (ft ++ [s]) (amc ++ [BItem.text s]) msgs).snaps,
          (bedrockGo tool rest script (ft ++ [s]) (amc ++ [BItem.text s]) msgs).msgs,
          (bedrockGo tool rest script (ft ++ [s]) (amc ++ [BItem.text s]) msgs).res⟩ := rfl

theorem bedrockGo_eq_toolerr (tool : Tool) (id name : String) (args : Args)
    (m : String) (rest : List BItem) (script : List (List BItem)) (ft : List String)
    (amc : List BItem) (msgs : List BEntry)
    (htool : tool name args = Except.error m) :
    bedrockGo tool (BItem.toolUse id name args :: rest) script ft amc msgs
      = ⟨[Ev.dispatch name args], [], resolveB amc msgs,
          Except.error ("ToolExecutionError: " ++ m)⟩ := by
  cases script with
  | nil => simp only [bedrockGo, htool]
  | cons rep script' => simp only [bedrockGo, htool]

theorem bedrockGo_eq_exhausted (tool : Tool) (id name : String) (args : Args)
    (rcontent : String) (rest : List BItem) (ft : List String)
    (amc : List BItem) (msgs : List BEntry)
    (htool : tool name args = Except.ok rcontent) :
    bedrockGo tool (BItem.toolUse id name args :: rest) [] ft amc msgs
      = ⟨[Ev.dispatch name args, Ev.appendResult id],
          [resolveB (amc ++ [BItem.toolUse id name args]) msgs,
           resolveB (amc ++ [BItem.toolUse id name args]) (msgs ++ [BEntry.amcRef]),
           resolveB (amc ++ [BItem.toolUse id name args])
             (msgs ++ [BEntry.amcRef] ++ [BEntry.toolRes id rcontent])],
          resolveB (amc ++ [BItem.toolUse id name args])
            (msgs ++ [BEntry.amcRef] ++ [BEntry.toolRes id rcontent]),
          Except.error "BackendError"⟩ := by
  simp only [bedrockGo, htool]

theorem bedrockGo_eq_follow_text (tool : Tool) (id name : String) (args : Args)
    (rcontent : String) (rest : List BItem) (t : String) (represt : List BItem)
    (script' : List (List BItem)) (ft : List String) (amc : List BItem)
    (msgs : List BEntry) (htool : tool name args = Except.ok rcontent) :
    bedrockGo tool (BItem.toolUse id name args :: rest)
        ((BItem.text t :: represt) :: script') ft amc msgs
      = ⟨Ev.dispatch name args :: Ev.appendResult id ::
            Ev.backend (toolUseIds (BItem.text t :: represt))
            :: (bedrockGo tool rest script' (ft ++ [callMarker name args] ++ [t])
                  (amc ++ [BItem.toolUse id name args])
                  (msgs ++ [BEntry.amcRef] ++ [BEntry.toolRes id rcontent])).evs,
          [resolveB (amc ++ [BItem.toolUse id name args]) msgs,
           resolveB (amc ++ [BItem.toolUse id name args]) (msgs ++ [BEntry.amcRef]),
           resolveB (amc ++ [BItem.toolUse id name args])
             (msgs ++ [BEntry.amcRef] ++ [BEntry.toolRes id rcontent])]
            ++ (bedrockGo tool rest script' (ft ++ [callMarker name args] ++ [t])
                  (amc ++ [BItem.toolUse id name args])
                  (msgs ++ [BEntry.amcRef] ++ [BEntry.toolRes id rcontent])).snaps,
          (bedrockGo tool rest script' (ft ++ [callMarker name args] ++ [t])
              (amc ++ [BItem.toolUse id name args])
              (msgs ++ [BEntry.amcRef] ++ [BEntry.toolRes id rcontent])).msgs,
          (bedrockGo tool rest script' (ft ++ [callMarker name args] ++ [t])
              (amc ++ [BItem.toolUse id name args])
              (msgs ++ [BEntry.amcRef] ++ [BEntry.toolRes id rcontent])).res⟩ := by
  conv_lhs => rw [bedrockGo]
  simp only [htool]

theorem bedrockGo_eq_follow_tooluse (tool : Tool) (id name : String) (args : Args)
    (rcontent : String) (rest : List BItem) (id2 name2 : String) (args2 : Args)
    (represt : List BItem) (script' : List (List BItem)) (ft : List String)
    (amc : List BItem) (msgs : List BEntry)
    (htool : tool name args = Except.ok rcontent) :
    bedrockGo tool (BItem.toolUse id name args :: rest)
        ((BItem.toolUse id2 name2 args2 :: represt) :: script') ft amc msgs
      = ⟨[Ev.dispatch name args, Ev.appendResult id,
            Ev.backend (toolUseIds (BItem.toolUse id2 name2 args2 :: represt))],
          [resolveB (amc ++ [BItem.toolUse id name args]) msgs,
           resolveB (amc ++ [BItem.toolUse id name args]) (msgs ++ [BEntry.amcRef]),
           resolveB (amc ++ [BItem.toolUse id name args])
             (msgs ++ [BEntry.amcRef] ++ [BEntry.toolRes id rcontent])],
          resolveB (amc ++ [BItem.toolUse id name args])
            (msgs ++ [BEntry.amcRef] ++ [BEntry.toolRes id rcontent]),
          Except.error "KeyError: text"⟩ := by
  simp only [bedrockGo, htool]

theorem bedrockGo_eq_follow_empty (tool : Tool) (id name : String) (args : Args)
    (rcontent : String) (rest : List BItem) (script' : List (List BItem))
    (ft : List String) (amc : List BItem) (msgs : List BEntry)
    (htool : tool name args = Except.ok rcontent) :
    bedrockGo tool (BItem.toolUse id name args :: rest) ([] :: script') ft amc msgs
      = ⟨[Ev.dispatch name args, Ev.appendResult id, Ev.backend []],
          [resolveB (amc ++ [BItem.toolUse id name args]) msgs,
           resolveB (amc ++ [BItem.toolUse id name args]) (msgs ++ [BEntry.amcRef]),
           resolveB (amc ++ [BItem.toolUse id name args])
             (msgs ++ [BEntry.amcRef] ++ [BEntry.toolRes id rcontent])],
          resolveB (amc ++ [BItem.toolUse id name args])
            (msgs ++ [BEntry.amcRef] ++ [BEntry.toolRes id rcontent]),
          Except.error "IndexError"⟩ := by
  simp only [bedrockGo, htool]

/-! Lemmas about the Variant A reply-item loop. -/

theorem bedrockGo_texts (tool : Tool) :
    ∀ (items : List BItem) (script : List (List BItem)) (ft : List String)
      (amc : List BItem) (msgs : List BEntry),
      (∀ x ∈ items, isTextItem x = true) →
      (bedrockGo tool items script ft amc msgs).evs = []
      ∧ (bedrockGo tool items script ft amc msgs).res
          = Except.ok (String.intercalate "\n" (ft ++ textsOf items)) := by
  intro items
  induction items with
  | nil =>
      intro script ft amc msgs _
      rw [bedrockGo_eq_nil]
      exact ⟨rfl, by simp [textsOf]⟩
  | cons i items ih =>
      intro script ft amc msgs h
      cases i with
      | text s =>
          have ihr := ih script (ft ++ [s]) (amc ++ [BItem.text s]) msgs
            (fun x hx => h x (List.mem_cons_of_mem _ hx))
          rw [bedrockGo_eq_text]
          have harr : (ft ++ [s]) ++ textsOf items
              = ft ++ textsOf (BItem.text s :: items) := by
            simp [textsOf, List.filterMap_cons]
          exact ⟨ihr.1, by rw [← harr]; exact ihr.2⟩
      | toolUse id name args =>
          have := h _ (List.mem_cons_self _ _)
          simp [isTextItem] at this

theorem bedrockGo_toolfail (tool : Tool) (em id name : String) (args : Args)
    (htool : tool name args = Except.error em) :
    ∀ (pre : List BItem) (post : List BItem) (script : List (List BItem))
      (ft : List String) (amc : List BItem) (msgs : List BEntry),
      (∀ x ∈ pre, isTextItem x = true) →
      (bedrockGo tool (pre ++ BItem.toolUse id name args :: post) script ft amc msgs).res
          = Except.error ("ToolExecutionError: " ++ em)
      ∧ backendCount
          (bedrockGo tool (pre ++ BItem.toolUse id name args :: post) script ft amc msgs).evs = 0
      ∧ resultCount
          (bedrockGo tool (pre ++ BItem.toolUse id name args :: post) script ft amc msgs).evs = 0 := by
  intro pre
  induction pre with
  | nil =>
      intro post script ft amc msgs _
      rw [List.nil_append,
        bedrockGo_eq_toolerr tool id name args em post script ft amc msgs htool]
      refine ⟨rfl, ?_, ?_⟩
      · simp [backendCount, List.countP_cons, isBackendEv]
      · simp [resultCount, List.countP_cons]
  | cons i pre ih =>
      intro post script ft amc msgs h
      cases i with
      | text s =>
          rw [List.cons_append, bedrockGo_eq_text]
          exact ih post script (ft ++ [s]) (amc ++ [BItem.text s]) msgs
            (fun x hx => h x (List.mem_cons_of_mem _ hx))
      | toolUse id2 name2 args2 =>
          have := h _ (List.mem_cons_self _ _)
          simp [isTextItem] at this

theorem bedrockGo_counts (tool : Tool) :
    ∀ (items : List BItem) (script : List (List BItem)) (ft : List String)
      (amc : List BItem) (msgs : List BEntry),
      backendCount (bedrockGo tool items script ft amc msgs).evs ≤ toolUseCount items
      ∧ (∀ s, (bedrockGo tool items script ft amc msgs).res = Except.ok s →
          backendCount (bedrockGo tool items script ft amc msgs).evs = toolUseCount items)
      ∧ ∃ t, dispatchesOf (bedrockGo tool items script ft amc msgs).evs ++ t
          = toolUsesOf items := by
  intro items
  induction items with
  | nil =>
      intro script ft amc msgs
      rw [bedrockGo_eq_nil]
      exact ⟨by simp [backendCount, toolUseCount, toolUsesOf],
        fun s _ => by simp [backendCount, toolUseCount, toolUsesOf],
        ⟨[], by simp [dispatchesOf, toolUsesOf]⟩⟩
  | cons i items ih =>
      intro script ft amc msgs
      cases i with
      | text s =>
          have ihr := ih script (ft ++ [s]) (amc ++ [BItem.text s]) msgs
          rw [bedrockGo_eq_text]
          have hcnt : toolUseCount (BItem.text s :: items) = toolUseCount items := by
            simp [toolUseCount, toolUsesOf, List.filterMap_cons]
          have huses : toolUsesOf (BItem.text s :: items) = toolUsesOf items := by
            simp [toolUsesOf, List.filterMap_cons]
          exact ⟨by rw [hcnt]; exact ihr.1,
            fun s2 hs2 => by rw [hcnt]; exact ihr.2.1 s2 hs2,
            by rw [huses]; exact ihr.2.2⟩
      | toolUse id name args =>
          have hcnt : toolUseCount (BItem.toolUse id name args :: items)
              = toolUseCount items + 1 := by
            simp [toolUseCount, toolUsesOf, List.filterMap_cons]
          have huses : toolUsesOf (BItem.toolUse id name args :: items)
              = (name, args) :: toolUsesOf items := by
            simp [toolUsesOf, List.filterMap_cons]
          cases htool : tool name args with
          | error m =>
              rw [bedrockGo_eq_toolerr tool id name args m items script ft amc msgs htool]
              refine ⟨?_, ?_, ?_⟩
              · simp [backendCount, List.countP_cons, isBackendEv, hcnt]
              · intro s2 hs2
                simp at hs2
              · refine ⟨toolUsesOf items, ?_⟩
                simp [dispatchesOf, List.filterMap_cons, huses]
          | ok rcontent =>
              cases script with
              | nil =>
                  rw [bedrockGo_eq_exhausted tool id name args rcontent items ft amc msgs htool]
                  refine ⟨?_, ?_, ?_⟩
                  · simp [backendCount, List.countP_cons, isBackendEv, hcnt]
                  · intro s2 hs2
                    simp at hs2
                  · refine ⟨toolUsesOf items, ?_⟩
                    simp [dispatchesOf, List.filterMap_cons, huses]
              | cons rep script' =>
                  cases rep with
                  | nil =>
                      rw [bedrockGo_eq_follow_empty tool id name args rcontent items
                        script' ft amc msgs htool]
                      refine ⟨?_, ?_, ?_⟩
                      · simp [backendCount, List.countP_cons, isBackendEv, hcnt]
                      · intro s2 hs2
                        simp at hs2
                      · refine ⟨toolUsesOf items, ?_⟩
                        simp [dispatchesOf, List.filterMap_cons, huses]
                  | cons ri represt =>
                      cases ri with
                      | toolUse id2 name2 args2 =>
                          rw [bedrockGo_eq_follow_tooluse tool id name args rcontent items
                            id2 name2 args2 represt script' ft amc msgs htool]
                          refine ⟨?_, ?_, ?_⟩
                          · simp [backendCount, List.countP_cons, isBackendEv, hcnt]
                          · intro s2 hs2
                            simp at hs2
                          · refine ⟨toolUsesOf items, ?_⟩
                            simp [dispatchesOf, List.filterMap_cons, huses]
                      | text t =>
                          have ihr := ih script' (ft ++ [callMarker name args] ++ [t])
                            (amc ++ [BItem.toolUse id name args])
                            (msgs ++ [BEntry.amcRef] ++ [BEntry.toolRes id rcontent])
                          rw [bedrockGo_eq_follow_text tool id name args rcontent items
                            t represt script' ft amc msgs htool]
                          refine ⟨?_, ?_, ?_⟩
                          · have h1 := ihr.1
                            simp [backendCount, List.countP_cons, isBackendEv, hcnt] at *
                            omega
                          · intro s2 hs2
                            have h2 := ihr.2.1 s2 hs2
                            simp [backendCount, List.countP_cons, isBackendEv, hcnt] at *
                            omega
                          · obtain ⟨t2, ht2⟩ := ihr.2.2
                            refine ⟨t2, ?_⟩
                            simp [dispatchesOf, List.filterMap_cons, huses] at *
                            exact ht2

/-! Small rewrite lemmas for the trace counters. -/

theorem backendCount_nil : backendCount [] = 0 := rfl

theorem backendCount_cons_backend (ids : List String) (t : List Ev) :
    backendCount (Ev.backend ids :: t) = backendCount t + 1 := by
  simp [backendCount, List.countP_cons, isBackendEv]

theorem backendCount_cons_dispatch (n : String) (a : Args) (t : List Ev) :
    backendCount (Ev.dispatch n a :: t) = backendCount t := by
  simp [backendCount, List.countP_cons, isBackendEv]

theorem backendCount_cons_result (i : String) (t : List Ev) :
    backendCount (Ev.appendResult i :: t) = backendCount t := by
  simp [backendCount, List.countP_cons, isBackendEv]

theorem dispatchCount_cons_backend (ids : List String) (t : List Ev) :
    dispatchCount (Ev.backend ids :: t) = dispatchCount t := by
  simp [dispatchCount, List.countP_cons]

theorem resultCount_cons_backend (ids : List String) (t : List Ev) :
    resultCount (Ev.backend ids :: t) = resultCount t := by
  simp [resultCount, List.countP_cons]

theorem resultCount_cons_dispatch (n : String) (a : Args) (t : List Ev) :
    resultCount (Ev.dispatch n a :: t) = resultCount t := by
  simp [resultCount, List.countP_cons]

theorem dispatchesOf_cons_backend (ids : List String) (t : List Ev) :
    dispatchesOf (Ev.backend ids :: t) = dispatchesOf t := by
  simp [dispatchesOf, List.filterMap_cons]

/-! Lemmas about the interactive chat loop. -/

theorem chat_loop_no_quit :
    ∀ lines : List String, (∀ x ∈ lines, isQuitLine x = false) →
      chat_loop lines = lines.map pyStrip := by
  intro lines
  induction lines with
  | nil => intro _; rfl
  | cons l lines ih =>
      intro h
      have hl := h l (List.mem_cons_self l lines)
      simp only [isQuitLine] at hl
      simp [chat_loop, hl, ih (fun x hx => h x (List.mem_cons_of_mem l hx))]

theorem chat_loop_stops :
    ∀ (pre : List String) (l : String) (post : List String),
      (∀ x ∈ pre, isQuitLine x = false) → isQuitLine l = true →
      chat_loop (pre ++ l :: post) = pre.map pyStrip := by
  intro pre
  induction pre with
  | nil =>
      intro l post _ hl
      simp only [isQuitLine] at hl
      simp [chat_loop, hl]
  | cons x pre ih =>
      intro l post h hl
      have hx := h x (List.mem_cons_self x pre)
      simp only [isQuitLine] at hx
      simp [chat_loop, hx, ih l post (fun y hy => h y (List.mem_cons_of_mem x hy)) hl]

/-! Claim theorems. -/

/-- Claim C10: in both variants the interactive loop's quit sentinel is
matched after stripping whitespace and case-insensitively — every line whose
stripped, lowercased form equals "quit" terminates the chat loop without
dispatching a query, and every earlier (non-quit) line is dispatched as
exactly one query (its stripped form). -/
theorem claim10_chat_loop :
    (∀ (pre : List String) (l : String) (post : List String),
        (∀ x ∈ pre, isQuitLine x = false) → isQuitLine l = true →
        chat_loop (pre ++ l :: post) = pre.map pyStrip)
    ∧ (∀ lines : List String, (∀ x ∈ lines, isQuitLine x = false) →
        chat_loop lines = lines.map pyStrip) :=
  ⟨fun pre l post h hl => chat_loop_stops pre l post h hl,
   fun lines h => chat_loop_no_quit lines h⟩

/-- Witness for C10 at a concrete input list: two ordinary lines are
dispatched (stripped), "  QUIT " stops the loop, the line after it is
never dispatched. -/
theorem claim10_witness :
    chat_loop (["hi", " add 2 "] ++ "  QUIT " :: ["later"]) = ["hi", "add 2"] :=
  (claim10_chat_loop.1 ["hi", " add 2 "] "  QUIT " ["later"]
    (by decide) (by decide)).trans (by decide)

/-- Claim C8: the tool catalog adapter is a pure per-descriptor mapping —
Variant A produces one `{name, description, input_schema}` entry per
descriptor, Variant B one `{type:"function", function:{name, description,
parameters}}` entry per descriptor, and reading the provider schema back
yields the original descriptors (in particular identical names and
descriptions). -/
theorem claim8_catalog (ts : List ToolDescriptor) :
    (available_tools_bedrock ts).length = ts.length
    ∧ (available_tools_openai ts).length = ts.length
    ∧ ((available_tools_openai ts).all fun e => e.type == "function") = true
    ∧ (available_tools_bedrock ts).map readBedrockEntry = ts
    ∧ (available_tools_openai ts).map readOAEntry = ts := by
  refine ⟨by simp [available_tools_bedrock], by simp [available_tools_openai], ?_, ?_, ?_⟩
  · induction ts with
    | nil => rfl
    | cons t ts _ => simp [available_tools_openai]
  · induction ts with
    | nil => rfl
    | cons t ts ih => simpa [available_tools_bedrock, readBedrockEntry] using ih
  · induction ts with
    | nil => rfl
    | cons t ts ih => simpa [available_tools_openai, readOAEntry] using ih

/-- Claim C5 counterexample: on the specification's multi-round `add`
scenario, Variant A does not return "5" — the returned string additionally
contains the locally generated `[Calling tool ...]` marker line. -/
theorem claim5_counterexample :
    (process_query_bedrock toolAdd scriptAAdd "add 2 and 3").res
        = Except.ok "[Calling tool add with args \x7b'a': 2, 'b': 3\x7d]\n5"
    ∧ (process_query_bedrock toolAdd scriptAAdd "add 2 and 3").res
        ≠ Except.ok "5" := by
  constructor
  · rfl
  · decide

/-- Claim C5 (amended): on the multi-round `add` scenario both variants
perform exactly 2 backend calls and 1 tool call; Variant B returns "5",
while Variant A returns "[Calling tool add with args \x7b'a': 2, 'b': 3\x7d]\n5". -/
theorem claim5_amended :
    ((process_query_openai toolAdd scriptBAdd "add 2 and 3").res = Except.ok "5"
      ∧ backendCount (process_query_openai toolAdd scriptBAdd "add 2 and 3").evs = 2
      ∧ dispatchCount (process_query_openai toolAdd scriptBAdd "add 2 and 3").evs = 1)
    ∧ (backendCount (process_query_bedrock toolAdd scriptAAdd "add 2 and 3").evs = 2
      ∧ dispatchCount (process_query_bedrock toolAdd scriptAAdd "add 2 and 3").evs = 1
      ∧ (process_query_bedrock toolAdd scriptAAdd "add 2 and 3").res
          = Except.ok "[Calling tool add with args \x7b'a': 2, 'b': 3\x7d]\n5") := by
  refine ⟨⟨rfl, rfl, rfl⟩, rfl, rfl, rfl⟩

/-- Claim C1 counterexample: a Variant A run in which the first reply
carries two tool requests; the second request's result is appended only
after an intervening backend call, so the trace violates the claimed
invariant (each emitted request answered exactly once before the next
backend call). -/
theorem claim1_counterexample :
    requestsAnswered (process_query_bedrock toolOK scriptA2 "q").evs = false := by
  rfl

/-- Claim C7 counterexample: in the same Variant A run the assistant message
is appended by reference and then mutated in place (the accumulated content
list gains the second tool request after the message was already in the
history), so the snapshot sequence is not monotonically growing. -/
theorem claim7_counterexample :
    snapsMono (process_query_bedrock toolOK scriptA2 "q").snaps = false := by
  rfl

/-- Claim C4 counterexample: in Variant A, after the backend returns a reply
with zero tool requests (the 4th trace event), the run still dispatches a
tool and performs yet another backend call, so processQuery does not
terminate as soon as a reply contains zero tool requests. -/
theorem claim4_counterexample :
    ((process_query_bedrock toolOK scriptA2 "q").evs.drop 3).head?
        = some (Ev.backend [])
    ∧ backendCount ((process_query_bedrock toolOK scriptA2 "q").evs.drop 4) = 1
    ∧ dispatchCount ((process_query_bedrock toolOK scriptA2 "q").evs.drop 4) = 1 := by
  refine ⟨rfl, rfl, rfl⟩

/-- Claim C2 counterexample: in both variants a failing tool dispatch is not
caught — processQuery aborts with the ToolExecutionError, no tool-result
message is appended, and no second backend call is made. -/
theorem claim2_counterexample :
    ((process_query_bedrock toolFail scriptA1 "q").res
        = Except.error "ToolExecutionError: unknown tool"
      ∧ backendCount (process_query_bedrock toolFail scriptA1 "q").evs = 1
      ∧ resultCount (process_query_bedrock toolFail scriptA1 "q").evs = 0)
    ∧ ((process_query_openai toolFail scriptB1 "q").res
        = Except.error "ToolExecutionError: unknown tool"
      ∧ backendCount (process_query_openai toolFail scriptB1 "q").evs = 1
      ∧ resultCount (process_query_openai toolFail scriptB1 "q").evs = 0) := by
  refine ⟨⟨rfl, rfl, rfl⟩, rfl, rfl, rfl⟩

/-- Claim C3 counterexample: a Variant B run that emits the text "thinking"
alongside a tool call and then "5"; processQuery returns "5", not the
newline-join of all emitted textual content. -/
theorem claim3_counterexample :
    (process_query_openai toolAdd scriptBTexty "q").res = Except.ok "5"
    ∧ backendCount (process_query_openai toolAdd scriptBTexty "q").evs = 2
    ∧ oaEmittedTexts scriptBTexty 2 = ["thinking", "5"]
    ∧ ("5" : String) ≠ String.intercalate "\n" ["thinking", "5"] := by
  refine ⟨rfl, rfl, rfl, by decide⟩

/-- Claim C9 counterexample: with a tool session that raises on every call,
Variant A performs only 1 backend call although the first reply contains
k = 1 tool requests, refuting the unconditional "exactly 1 + k backend
invocations". -/
theorem claim9_counterexample :
    backendCount (process_query_bedrock toolFail scriptA1 "q").evs = 1
    ∧ toolUseCount (scriptA1.headD []) = 1
    ∧ backendCount (process_query_bedrock toolFail scriptA1 "q").evs
        ≠ 1 + toolUseCount (scriptA1.headD []) := by
  refine ⟨rfl, rfl, by decide⟩

/-- Claim C1 (amended): in Variant B — assuming the tool-call ids within
each scripted reply are pairwise distinct (as the provider guarantees) and
the tool session succeeds — every ToolRequest emitted by the assistant is
followed, before the next backend call, by exactly one ToolResult with
matching requestId.  (Variant A violates the invariant, see the
counterexample.) -/
theorem claim1_amended (tool : Tool) (script : List OAMessage) (q : String)
    (hok : ∀ n a, ∃ v, tool n a = Except.ok v)
    (hnd : ∀ m ∈ script, (m.tool_calls.map OACall.id).Nodup) :
    requestsAnswered (process_query_openai tool script q).evs = true := by
  cases script with
  | nil => rfl
  | cons m script' =>
      show requestsAnswered (Ev.backend (m.tool_calls.map OACall.id)
        :: (oaLoop tool m script' [OAMsg.user q]).evs) = true
      exact oaLoop_answered tool hok script' m [OAMsg.user q] hnd

/-- Witness for the amended C1 at a concrete scripted run. -/
theorem claim1_witness :
    requestsAnswered (process_query_openai toolOK scriptBAdd "w").evs = true :=
  claim1_amended toolOK scriptBAdd "w" (fun _ _ => ⟨"r", rfl⟩) (by decide)

/-- Claim C2 (amended): a ToolExecutionError raised during a tool dispatch
is NOT caught: in both variants processQuery aborts with the error, no
tool-result message is appended for it, and no further backend call is made
(the interactive chat loop catches the error and continues). -/
theorem claim2_amended :
    (∀ (tool : Tool) (em q id name : String) (args : Args)
        (pre post : List BItem) (rest : List (List BItem)),
        (∀ x ∈ pre, isTextItem x = true) →
        tool name args = Except.error em →
        (process_query_bedrock tool
            ((pre ++ BItem.toolUse id name args :: post) :: rest) q).res
            = Except.error ("ToolExecutionError: " ++ em)
        ∧ backendCount (process_query_bedrock tool
            ((pre ++ BItem.toolUse id name args :: post) :: rest) q).evs = 1
        ∧ resultCount (process_query_bedrock tool
            ((pre ++ BItem.toolUse id name args :: post) :: rest) q).evs = 0)
    ∧ (∀ (tool : Tool) (em q : String) (c : OACall) (cs : List OACall)
        (content : Option String) (rest : List OAMessage),
        tool c.name c.args = Except.error em →
        (process_query_openai tool (⟨content, c :: cs⟩ :: rest) q).res
            = Except.error ("ToolExecutionError: " ++ em)
        ∧ backendCount (process_query_openai tool (⟨content, c :: cs⟩ :: rest) q).evs = 1
        ∧ resultCount (process_query_openai tool (⟨content, c :: cs⟩ :: rest) q).evs = 0) := by
  constructor
  · intro tool em q id name args pre post rest hpre htool
    have hg := bedrockGo_toolfail tool em id name args htool pre post rest [] []
      [BEntry.user q] hpre
    refine ⟨hg.1, ?_, ?_⟩
    · show backendCount (Ev.backend (toolUseIds (pre ++ BItem.toolUse id name args :: post))
          :: (bedrockGo tool (pre ++ BItem.toolUse id name args :: post) rest [] []
                [BEntry.user q]).evs) = 1
      rw [backendCount_cons_backend, hg.2.1]
    · show resultCount (Ev.backend (toolUseIds (pre ++ BItem.toolUse id name args :: post))
          :: (bedrockGo tool (pre ++ BItem.toolUse id name args :: post) rest [] []
                [BEntry.user q]).evs) = 0
      rw [resultCount_cons_backend, hg.2.2]
  · intro tool em q c cs content rest htool
    have herr : (oaDispatch tool (c :: cs)
        ([OAMsg.user q] ++ [OAMsg.assistant ⟨content, c :: cs⟩])).err
        = some ("ToolExecutionError: " ++ em) := by
      simp [oaDispatch, htool]
    have hevs : (oaDispatch tool (c :: cs)
        ([OAMsg.user q] ++ [OAMsg.assistant ⟨content, c :: cs⟩])).evs
        = [Ev.dispatch c.name c.args] := by
      simp [oaDispatch, htool]
    have heq := oaLoop_eq_err tool ⟨content, c :: cs⟩ rest [OAMsg.user q] c cs
      ("ToolExecutionError: " ++ em) rfl herr
    refine ⟨?_, ?_, ?_⟩
    · show (oaLoop tool ⟨content, c :: cs⟩ rest [OAMsg.user q]).res
          = Except.error ("ToolExecutionError: " ++ em)
      rw [heq]
    · show backendCount (Ev.backend ((c :: cs).map OACall.id)
          :: (oaLoop tool ⟨content, c :: cs⟩ rest [OAMsg.user q]).evs) = 1
      rw [heq]
      show backendCount (Ev.backend ((c :: cs).map OACall.id)
          :: (oaDispatch tool (c :: cs)
                ([OAMsg.user q] ++ [OAMsg.assistant ⟨content, c :: cs⟩])).evs) = 1
      rw [hevs, backendCount_cons_backend, backendCount_cons_dispatch, backendCount_nil]
    · show resultCount (Ev.backend ((c :: cs).map OACall.id)
          :: (oaLoop tool ⟨content, c :: cs⟩ rest [OAMsg.user q]).evs) = 0
      rw [heq]
      show resultCount (Ev.backend ((c :: cs).map OACall.id)
          :: (oaDispatch tool (c :: cs)
                ([OAMsg.user q] ++ [OAMsg.assistant ⟨content, c :: cs⟩])).evs) = 0
      rw [hevs, resultCount_cons_backend, resultCount_cons_dispatch]
      rfl

/-- Witness for the amended C2: both variants at a concrete failing run. -/
theorem claim2_witness :
    ((process_query_bedrock toolFail
        (([] ++ BItem.toolUse "w1" "mul" [("a", 1)] :: []) :: [[BItem.text "x"]]) "wq").res
        = Except.error ("ToolExecutionError: " ++ "unknown tool")
      ∧ backendCount (process_query_bedrock toolFail
          (([] ++ BItem.toolUse "w1" "mul" [("a", 1)] :: []) :: [[BItem.text "x"]]) "wq").evs = 1
      ∧ resultCount (process_query_bedrock toolFail
          (([] ++ BItem.toolUse "w1" "mul" [("a", 1)] :: []) :: [[BItem.text "x"]]) "wq").evs = 0)
    ∧ ((process_query_openai toolFail ((⟨none, ⟨"wc", "mul", []⟩ :: []⟩ : OAMessage) :: []) "wq").res
        = Except.error ("ToolExecutionError: " ++ "unknown tool")
      ∧ backendCount (process_query_openai toolFail
          ((⟨none, ⟨"wc", "mul", []⟩ :: []⟩ : OAMessage) :: []) "wq").evs = 1
      ∧ resultCount (process_query_openai toolFail
          ((⟨none, ⟨"wc", "mul", []⟩ :: []⟩ : OAMessage) :: []) "wq").evs = 0) :=
  ⟨claim2_amended.1 toolFail "unknown tool" "wq" "w1" "mul" [("a", 1)] [] []
      [[BItem.text "x"]] (by simp) rfl,
    claim2_amended.2 toolFail "unknown tool" "wq" ⟨"wc", "mul", []⟩ [] none [] rfl⟩

/-- Claim C3 (amended): in Variant B the returned string is exactly the
content of the first reply that carries no tool calls (textual content of
earlier replies is omitted); in Variant A the returned string additionally
contains locally generated bracketed tool-call markers — concretely, on the
`add` scenario it returns "[Calling tool add with args \x7b'a': 2, 'b': 3\x7d]\n5". -/
theorem claim3_amended :
    (∀ (tool : Tool) (script : List OAMessage) (q s : String),
        (process_query_openai tool script q).res = Except.ok s →
        oaFirstFinal script = some s)
    ∧ (process_query_bedrock toolAdd scriptAAdd "add 2 and 3").res
        = Except.ok "[Calling tool add with args \x7b'a': 2, 'b': 3\x7d]\n5" := by
  constructor
  · intro tool script q s h
    cases script with
    | nil => simp [process_query_openai] at h
    | cons m script' => exact oaLoop_final_content tool script' m [OAMsg.user q] s h
  · rfl

/-- Witness for the amended C3 at a concrete scripted run. -/
theorem claim3_witness : oaFirstFinal scriptBAdd = some "5" :=
  claim3_amended.1 toolAdd scriptBAdd "add 2 and 3" "5" rfl

/-- Claim C4 (amended): in both variants, when the FIRST backend reply
contains zero tool requests, processQuery performs exactly one backend call
and zero tool calls and returns the final answer (Variant A, however, does
not in general stop at the first tool-free reply — see the counterexample). -/
theorem claim4_amended :
    (∀ (tool : Tool) (rep : List BItem) (rest : List (List BItem)) (q : String),
        (∀ x ∈ rep, isTextItem x = true) →
        backendCount (process_query_bedrock tool (rep :: rest) q).evs = 1
        ∧ dispatchCount (process_query_bedrock tool (rep :: rest) q).evs = 0
        ∧ (process_query_bedrock tool (rep :: rest) q).res
            = Except.ok (String.intercalate "\n" (textsOf rep)))
    ∧ (∀ (tool : Tool) (m : OAMessage) (rest : List OAMessage) (q c : String),
        m.tool_calls = [] → m.content = some c →
        backendCount (process_query_openai tool (m :: rest) q).evs = 1
        ∧ dispatchCount (process_query_openai tool (m :: rest) q).evs = 0
        ∧ (process_query_openai tool (m :: rest) q).res = Except.ok c) := by
  constructor
  · intro tool rep rest q h
    have hg := bedrockGo_texts tool rep rest [] [] [BEntry.user q] h
    refine ⟨?_, ?_, ?_⟩
    · show backendCount (Ev.backend (toolUseIds rep)
          :: (bedrockGo tool rep rest [] [] [BEntry.user q]).evs) = 1
      rw [hg.1, backendCount_cons_backend, backendCount_nil]
    · show dispatchCount (Ev.backend (toolUseIds rep)
          :: (bedrockGo tool rep rest [] [] [BEntry.user q]).evs) = 0
      rw [hg.1, dispatchCount_cons_backend]
      rfl
    · show (bedrockGo tool rep rest [] [] [BEntry.user q]).res
          = Except.ok (String.intercalate "\n" (textsOf rep))
      rw [hg.2]
      simp
  · intro tool m rest q c hc hcon
    have hl := oaLoop_eq_stop tool m rest [OAMsg.user q] hc
    refine ⟨?_, ?_, ?_⟩
    · show backendCount (Ev.backend (m.tool_calls.map OACall.id)
          :: (oaLoop tool m rest [OAMsg.user q]).evs) = 1
      rw [hl]
      rfl
    · show dispatchCount (Ev.backend (m.tool_calls.map OACall.id)
          :: (oaLoop tool m rest [OAMsg.user q]).evs) = 0
      rw [hl]
      rfl
    · show (oaLoop tool m rest [OAMsg.user q]).res = Except.ok c
      rw [hl]
      simp [hcon]

/-- Witness for the amended C4: both variants on a tool-free first reply. -/
theorem claim4_witness :
    (backendCount (process_query_bedrock toolOK [[BItem.text "hello"]] "w").evs = 1
      ∧ dispatchCount (process_query_bedrock toolOK [[BItem.text "hello"]] "w").evs = 0
      ∧ (process_query_bedrock toolOK [[BItem.text "hello"]] "w").res
          = Except.ok (String.intercalate "\n" (textsOf [BItem.text "hello"])))
    ∧ (backendCount (process_query_openai toolOK [⟨some "hi", []⟩] "w").evs = 1
      ∧ dispatchCount (process_query_openai toolOK [⟨some "hi", []⟩] "w").evs = 0
      ∧ (process_query_openai toolOK [⟨some "hi", []⟩] "w").res = Except.ok "hi") :=
  ⟨claim4_amended.1 toolOK [BItem.text "hello"] [] "w" (by simp [isTextItem]),
    claim4_amended.2 toolOK ⟨some "hi", []⟩ [] "w" "hi" rfl rfl⟩

/-- Claim C6: in Variant B, whenever a reply carries two or more tool calls
(and the tool session succeeds on them), every one of the calls is
dispatched and its result message appended to the history, in the order the
calls appear in the reply, before the next backend call: the trace events
preceding the next backend event are exactly the dispatch/append pairs in
call order, and the history is extended by the assistant message followed
by one result message per call, in call order.  Stated on the loop at an
arbitrary state, hence it covers every reply processed during a
processQuery call. -/
theorem claim6_multi_dispatch (tool : Tool) (cur : OAMessage)
    (script : List OAMessage) (msgs : List OAMsg)
    (hok : ∀ n a, ∃ v, tool n a = Except.ok v)
    (h2 : 2 ≤ cur.tool_calls.length) :
    (oaLoop tool cur script msgs).evs.takeWhile (fun e => !isBackendEv e)
        = pairEvs cur.tool_calls
    ∧ ∃ tail, (oaLoop tool cur script msgs).msgs
        = msgs ++ OAMsg.assistant cur :: (resultMsgs tool cur.tool_calls ++ tail) := by
  cases hc : cur.tool_calls with
  | nil =>
      rw [hc] at h2
      simp at h2
  | cons c cs =>
      have hd := oaDispatch_ok tool (c :: cs) (msgs ++ [OAMsg.assistant cur])
        (fun x _ => hok x.name x.args)
      have hnb : ∀ e ∈ pairEvs (c :: cs), (!isBackendEv e) = true := by
        intro e he
        simp [pairEvs_not_backend _ e he]
      cases script with
      | nil =>
          rw [oaLoop_eq_exhausted tool cur msgs c cs hc hd.1]
          constructor
          · show ((oaDispatch tool (c :: cs) (msgs ++ [OAMsg.assistant cur])).evs).takeWhile
                (fun e => !isBackendEv e) = pairEvs (c :: cs)
            rw [hd.2.1]
            exact takeWhile_all _ _ hnb
          · refine ⟨[], ?_⟩
            show (oaDispatch tool (c :: cs) (msgs ++ [OAMsg.assistant cur])).msgs
                = msgs ++ OAMsg.assistant cur :: (resultMsgs tool (c :: cs) ++ [])
            rw [hd.2.2]
            simp
      | cons m script' =>
          rw [oaLoop_eq_next tool cur m script' msgs c cs hc hd.1]
          constructor
          · show ((oaDispatch tool (c :: cs) (msgs ++ [OAMsg.assistant cur])).evs
                ++ Ev.backend (m.tool_calls.map OACall.id)
                :: (oaLoop tool m script'
                      (oaDispatch tool (c :: cs) (msgs ++ [OAMsg.assistant cur])).msgs).evs).takeWhile
                (fun e => !isBackendEv e) = pairEvs (c :: cs)
            rw [hd.2.1, takeWhile_append_all _ _ _ hnb]
            simp [List.takeWhile_cons, isBackendEv]
          · obtain ⟨t2, ht2⟩ := oaLoop_msgs_grows tool script' m
              (oaDispatch tool (c :: cs) (msgs ++ [OAMsg.assistant cur])).msgs
            refine ⟨t2, ?_⟩
            show (oaLoop tool m script'
                (oaDispatch tool (c :: cs) (msgs ++ [OAMsg.assistant cur])).msgs).msgs
                = msgs ++ OAMsg.assistant cur :: (resultMsgs tool (c :: cs) ++ t2)
            rw [ht2, hd.2.2]
            simp

/-- Witness for C6: a concrete reply with two simultaneous tool calls. -/
theorem claim6_witness :
    (oaLoop toolOK curB2 scriptDone [OAMsg.user "w"]).evs.takeWhile
        (fun e => !isBackendEv e) = pairEvs curB2.tool_calls
    ∧ ∃ tail, (oaLoop toolOK curB2 scriptDone [OAMsg.user "w"]).msgs
        = [OAMsg.user "w"] ++ OAMsg.assistant curB2
            :: (resultMsgs toolOK curB2.tool_calls ++ tail) :=
  claim6_multi_dispatch toolOK curB2 scriptDone [OAMsg.user "w"]
    (fun _ _ => ⟨"r", rfl⟩) (by decide)

/-- Claim C7 (amended): in Variant B the conversation history is
monotonically growing within one processQuery call — every snapshot taken
after an append extends the previous one, and no appended message is ever
changed.  (Variant A mutates an already-appended assistant message in
place — see the counterexample.) -/
theorem claim7_amended (tool : Tool) (script : List OAMessage) (q : String) :
    snapsMono (process_query_openai tool script q).snaps = true := by
  cases script with
  | nil => rfl
  | cons m script' =>
      show snapsMonoFrom [OAMsg.user q] (oaLoop tool m script' [OAMsg.user q]).snaps = true
      exact (oaLoop_snaps tool script' m [OAMsg.user q]).1

/-- Claim C9 (amended): Variant A performs at most 1 + k backend calls,
where k is the number of tool_use items in the FIRST reply, and exactly
1 + k whenever the run returns normally; it terminates unconditionally, and
the dispatched tool calls are always an order-preserving prefix of the first
reply's tool requests — tool requests appearing in later replies are never
dispatched. -/
theorem claim9_amended (tool : Tool) (script : List (List BItem)) (q : String) :
    backendCount (process_query_bedrock tool script q).evs
        ≤ 1 + toolUseCount (script.headD [])
    ∧ (∀ s, (process_query_bedrock tool script q).res = Except.ok s →
        backendCount (process_query_bedrock tool script q).evs
          = 1 + toolUseCount (script.headD []))
    ∧ ∃ t, dispatchesOf (process_query_bedrock tool script q).evs ++ t
        = toolUsesOf (script.headD []) := by
  cases script with
  | nil =>
      refine ⟨?_, ?_, ⟨[], ?_⟩⟩
      · show backendCount ([] : List Ev) ≤ 1 + toolUseCount []
        simp [backendCount, toolUseCount, toolUsesOf]
      · intro s hs
        exact absurd hs (by simp [process_query_bedrock])
      · rfl
  | cons rep rest =>
      have hg := bedrockGo_counts tool rep rest [] [] [BEntry.user q]
      refine ⟨?_, ?_, ?_⟩
      · show backendCount (Ev.backend (toolUseIds rep)
            :: (bedrockGo tool rep rest [] [] [BEntry.user q]).evs)
            ≤ 1 + toolUseCount rep
        rw [backendCount_cons_backend]
        have h1 := hg.1
        omega
      · intro s hs
        have h2 := hg.2.1 s hs
        show backendCount (Ev.backend (toolUseIds rep)
            :: (bedrockGo tool rep rest [] [] [BEntry.user q]).evs)
            = 1 + toolUseCount rep
        rw [backendCount_cons_backend]
        omega
      · obtain ⟨t, ht⟩ := hg.2.2
        refine ⟨t, ?_⟩
        show dispatchesOf (Ev.backend (toolUseIds rep)
            :: (bedrockGo tool rep rest [] [] [BEntry.user q]).evs) ++ t
            = toolUsesOf rep
        rw [dispatchesOf_cons_backend]
        exact ht

/-- Witness for the amended C9 at a concrete successful run. -/
theorem claim9_witness :
    backendCount (process_query_bedrock toolAdd scriptAAdd "add 2 and 3").evs
      = 1 + toolUseCount (scriptAAdd.headD []) :=
  (claim9_amended toolAdd scriptAAdd "add 2 and 3").2.1
    "[Calling tool add with args \x7b'a': 2, 'b': 3\x7d]\n5" rfl

end MCP





